import Mathlib

/-!
Verification of the trade-matcher repository (src/app.py, src/orders.py).

The two source files duplicate the core logic (Trade, Match, objective
functions, apply_wash_sale, generate_matches).  This development embeds
that core shallowly:

* Python `date` objects are embedded as day numbers in ℤ, so
  `(d1 - d2).days` becomes integer subtraction.
* Python floats (prices, amounts) are embedded as ℚ.
* Python integer quantities are embedded as ℤ.
* Mutable `Trade` objects are embedded as an arena (`List Trade`); a
  `Match` keeps the arena indices of its buy and sell trade, which plays
  the role of Python object identity in the `used_buy` / `used_sell`
  identity sets of `generate_matches`.
* Python's `list.sort` / `sorted` (timsort) is a stable sort; it is
  embedded as `List.insertionSort` over index-tagged elements with a
  lexicographic (key, position) relation, which yields exactly the
  stable ascending-by-key order.
* `orders.py` computes `total_amount / qty` without a zero guard (a
  `ZeroDivisionError` on qty = 0); that fallible division is embedded as
  an `Option`-valued function.  `app.py` guards the division and is
  embedded directly.
-/

namespace TradeMatcher

/-- One parsed CSV record, as built by `load_orders` / `load_orders_from_stream`:
keys `date`, `type`, `ticker`, `total_amount`, `qty`. -/
structure Record where
  date : ℤ
  type : String
  ticker : String
  total_amount : ℚ
  qty : ℤ
deriving DecidableEq, Repr

/-- The `Trade` class.  `qty` is the mutable remaining quantity, `price` the
derived unit price, `original_qty` the quantity at construction. -/
structure Trade where
  date : ℤ
  order_type : String
  ticker : String
  total_amount : ℚ
  qty : ℤ
  price : ℚ
  original_qty : ℤ
  matched_qty : ℤ
deriving DecidableEq, Repr

instance : Inhabited Trade := ⟨⟨0, "", "", 0, 0, 0, 0, 0⟩⟩

/-- `Trade.__init__` as written in `app.py` (lines 14-23): the unit price is
guarded, `total_amount / qty if qty != 0 else 0.0`. -/
def mkTrade (date : ℤ) (order_type ticker : String) (total_amount : ℚ) (qty : ℤ) : Trade :=
  { date := date
    order_type := order_type
    ticker := ticker
    total_amount := total_amount
    qty := qty
    price := if qty = 0 then 0 else total_amount / (qty : ℚ)
    original_qty := qty
    matched_qty := 0 }

/-- `Trade.__init__` as written in `orders.py` (lines 6-14): the unit price is
`total_amount / qty` with no guard, so construction raises
`ZeroDivisionError` when `qty = 0`; the raised exception is embedded as
`none`. -/
def mkTradeOrders? (date : ℤ) (order_type ticker : String) (total_amount : ℚ) (qty : ℤ) :
    Option Trade :=
  if qty = 0 then none
  else some
    { date := date
      order_type := order_type
      ticker := ticker
      total_amount := total_amount
      qty := qty
      price := total_amount / (qty : ℚ)
      original_qty := qty
      matched_qty := 0 }

/-- The `Match` class.  `buyIdx` / `sellIdx` record the arena indices of the
two referenced trades (Python object identity); `buy` / `sell` are the
field values of those trades at construction time. -/
structure Match where
  buyIdx : ℕ
  sellIdx : ℕ
  buy : Trade
  sell : Trade
  qty : ℤ
  profit : ℚ
  holding_period_days : ℤ
  is_wash_sale : Bool
deriving DecidableEq, Repr

/-- `Match.__init__` together with `_check_wash_sale`. -/
def mkMatch (buyIdx sellIdx : ℕ) (buy sell : Trade) (qty : ℤ) : Match :=
  { buyIdx := buyIdx
    sellIdx := sellIdx
    buy := buy
    sell := sell
    qty := qty
    profit := (sell.price - buy.price) * (qty : ℚ)
    holding_period_days := |sell.date - buy.date|
    is_wash_sale :=
      decide (sell.date - buy.date ≤ 30) && decide (0 < sell.date - buy.date) &&
        decide (sell.price < buy.price) }

/-- `Match.is_short_term`: `holding_period_days <= 365`. -/
def Match.is_short_term (m : Match) : Bool :=
  decide (m.holding_period_days ≤ 365)

/-- `Match.is_long_term`: `holding_period_days > 365`. -/
def Match.is_long_term (m : Match) : Bool :=
  decide (365 < m.holding_period_days)

/-- `objective_profit`: `sum(m.profit for m in matches)`. -/
def objective_profit (ms : List Match) : ℚ :=
  (ms.map Match.profit).sum

/-- `objective_loss`: `-sum(m.profit for m in matches)`. -/
def objective_loss (ms : List Match) : ℚ :=
  -(ms.map Match.profit).sum

/-- `objective_short_term_profit`. -/
def objective_short_term_profit (ms : List Match) : ℚ :=
  ((ms.filter Match.is_short_term).map Match.profit).sum

/-- `objective_long_term_profit`. -/
def objective_long_term_profit (ms : List Match) : ℚ :=
  ((ms.filter Match.is_long_term).map Match.profit).sum

/-- `objective_short_term_loss`. -/
def objective_short_term_loss (ms : List Match) : ℚ :=
  -((ms.filter Match.is_short_term).map Match.profit).sum

/-- `objective_long_term_loss`. -/
def objective_long_term_loss (ms : List Match) : ℚ :=
  -((ms.filter Match.is_long_term).map Match.profit).sum

/-- `objective_minimal_loss`: `abs(min(0, sum(m.profit for m in matches)))`. -/
def objective_minimal_loss (ms : List Match) : ℚ :=
  |min 0 (ms.map Match.profit).sum|

/-- The keys of `strategy_map`. -/
def strategyKeys : List String := ["1", "2", "3", "4", "5", "6", "7"]

/-- The objective function bound to a key in `strategy_map`.  Both entry
points only look a key up after establishing membership in
`strategy_map`, so the catch-all arm (mapping to `objective_profit`) is
never reached from a resolved key. -/
def pickStrategy (k : String) : List Match → ℚ :=
  if k = "1" then objective_profit
  else if k = "2" then objective_loss
  else if k = "3" then objective_short_term_profit
  else if k = "4" then objective_long_term_profit
  else if k = "5" then objective_short_term_loss
  else if k = "6" then objective_long_term_loss
  else if k = "7" then objective_minimal_loss
  else objective_profit

/-- Strategy resolution in `orders.py` `main` (lines 245-247):
`if selected not in strategy_map: selected = "1"`. -/
def resolveKeyCLI (k : String) : String :=
  if k ∈ strategyKeys then k else "1"

/-- Strategy resolution in `app.py` `process` (lines 256-260):
`strategy = strategy or "1"` (absent form field → `None`, embedded as
`none`; Python also treats the empty string as falsy) followed by the
same membership check as the CLI. -/
def resolveKeyWeb (k : Option String) : String :=
  resolveKeyCLI (match k with
    | none => "1"
    | some s => if s = "" then "1" else s)

/-- One open buy lot of the wash-sale adjuster (`apply_wash_sale`). -/
structure Lot where
  date : ℤ
  ticker : String
  qty : ℤ
  price : ℚ
  orig_total : ℚ
  adjusted : Bool
deriving DecidableEq, Repr

instance : Inhabited Lot := ⟨⟨0, "", 0, 0, 0, false⟩⟩

/-- One emitted wash-sale adjustment event. -/
structure WSEvent where
  ticker : String
  sell_date : ℤ
  buy_date : ℤ
  adjustment_per_unit : ℚ
  qty : ℤ
  total_adjustment : ℚ
  old_price : ℚ
  new_price : ℚ
deriving DecidableEq, Repr

/-- State of the `apply_wash_sale` loop: `ticker_buys` is the
`defaultdict(list)` (missing tickers give `[]`), `wash_sales` the output
list. -/
structure WSState where
  ticker_buys : String → List Lot
  wash_sales : List WSEvent

/-- The per-record price of `apply_wash_sale` in `app.py` (line 78):
`total / qty if qty != 0 else 0.0`. -/
def recPrice (r : Record) : ℚ :=
  if r.qty = 0 then 0 else r.total_amount / (r.qty : ℚ)

/-- The per-record price of `apply_wash_sale` in `orders.py` (line 68):
`total / qty` with no guard; `none` embeds the `ZeroDivisionError` raised
when `qty = 0`. -/
def recPriceOrders? (r : Record) : Option ℚ :=
  if r.qty = 0 then none else some (r.total_amount / (r.qty : ℚ))

/-- Adjustment of a chosen lot: `price += loss_per_unit`,
`orig_total += loss_per_unit * qty`, `adjusted = True` (with
`loss_per_unit = lot.price - sellPrice`). -/
def adjustLot (sellPrice : ℚ) (l : Lot) : Lot :=
  { l with
    price := l.price + (l.price - sellPrice)
    orig_total := l.orig_total + (l.price - sellPrice) * (l.qty : ℚ)
    adjusted := true }

/-- The wash-sale event appended when lot `l` is adjusted by a sell at
`sellDate` / `sellPrice`. -/
def mkWSEvent (ticker : String) (sellDate : ℤ) (sellPrice : ℚ) (l : Lot) : WSEvent :=
  { ticker := ticker
    sell_date := sellDate
    buy_date := l.date
    adjustment_per_unit := l.price - sellPrice
    qty := l.qty
    total_adjustment := (l.price - sellPrice) * (l.qty : ℚ)
    old_price := l.price
    new_price := l.price + (l.price - sellPrice) }

/-- The scan of a ticker's open-buy-lot list performed for one sell record
(`app.py` lines 92-112).  The outer condition is the eligibility test
`0 < days_diff <= 30 and not adjusted`; the inner one is
`loss_per_unit > 0`.  The `break` sits inside the inner branch, so when
either condition fails the loop moves on to the next lot. -/
def scanLots (ticker : String) (sellDate : ℤ) (sellPrice : ℚ) :
    List Lot → List Lot × Option WSEvent
  | [] => ([], none)
  | l :: ls =>
    if 0 < sellDate - l.date ∧ sellDate - l.date ≤ 30 ∧ l.adjusted = false then
      if 0 < l.price - sellPrice then
        (adjustLot sellPrice l :: ls, some (mkWSEvent ticker sellDate sellPrice l))
      else
        let r := scanLots ticker sellDate sellPrice ls
        (l :: r.1, r.2)
    else
      let r := scanLots ticker sellDate sellPrice ls
      (l :: r.1, r.2)

/-- The combined condition under which the scan of `scanLots` selects a lot
for adjustment: eligibility and a positive per-unit loss. -/
def washPred (sellDate : ℤ) (sellPrice : ℚ) (l : Lot) : Bool :=
  decide ((0 < sellDate - l.date ∧ sellDate - l.date ≤ 30 ∧ l.adjusted = false) ∧
    0 < l.price - sellPrice)

/-- Index of the first lot satisfying `washPred`, if any. -/
def firstWashIdx (sellDate : ℤ) (sellPrice : ℚ) : List Lot → Option ℕ
  | [] => none
  | l :: ls =>
    if washPred sellDate sellPrice l then some 0
    else (firstWashIdx sellDate sellPrice ls).map (· + 1)

/-- One iteration of the `apply_wash_sale` record loop (`app.py` lines
72-112). -/
def wsStep (s : WSState) (r : Record) : WSState :=
  let price := recPrice r
  if r.type = "buy" then
    { s with
      ticker_buys := fun t =>
        if t = r.ticker then
          s.ticker_buys t ++
            [{ date := r.date, ticker := r.ticker, qty := r.qty, price := price,
               orig_total := r.total_amount, adjusted := false }]
        else s.ticker_buys t }
  else if r.type = "sell" then
    let sc := scanLots r.ticker r.date price (s.ticker_buys r.ticker)
    { ticker_buys := fun t => if t = r.ticker then sc.1 else s.ticker_buys t
      wash_sales := s.wash_sales ++ (match sc.2 with | some e => [e] | none => []) }
  else s

/-- `apply_wash_sale` (`app.py` lines 68-114): fold the record loop from the
empty state and return the accumulated event list. -/
def apply_wash_sale (records : List Record) : List WSEvent :=
  (records.foldl wsStep ⟨fun _ => [], []⟩).wash_sales

/-- Construction of one `Trade` from a record, followed by the wash-sale
overwrite loop of `load_orders_from_stream` (`app.py` lines 230-236):
matching events overwrite `price` with `new_price` and recompute
`total_amount = price * qty`. -/
def buildTrade (wash_sales : List WSEvent) (r : Record) : Trade :=
  let t := mkTrade r.date r.type r.ticker r.total_amount r.qty
  wash_sales.foldl
    (fun t w =>
      if t.order_type = "buy" ∧ t.ticker = w.ticker ∧ t.date = w.buy_date then
        { t with price := w.new_price, total_amount := w.new_price * (t.qty : ℚ) }
      else t)
    t

/-- The record-to-Trade part of `load_orders` / `load_orders_from_stream`
(after CSV parsing): run `apply_wash_sale`, then build every `Trade`. -/
def load_orders_from_records (records : List Record) : List Trade :=
  let ws := apply_wash_sale records
  records.map (buildTrade ws)

/-- Tag every element of a list with its position, starting at `n`; the tag
plays the role of Python object identity and of generation order. -/
def idxList {α : Type} : ℕ → List α → List (ℕ × α)
  | _, [] => []
  | n, a :: as => (n, a) :: idxList (n + 1) as

/-- Stable ascending-by-date order on index-tagged trades: `buys.sort(key=lambda x: x.date)`
(timsort is stable, so date ties keep list order, i.e. tag order). -/
def dateRel (a b : ℕ × Trade) : Prop :=
  a.2.date < b.2.date ∨ (a.2.date = b.2.date ∧ a.1 ≤ b.1)

instance : DecidableRel dateRel := fun a b => by
  unfold dateRel; infer_instance

/-- Candidate generation (`generate_matches` Phase 1, `app.py` lines
145-161): partition the arena into buys and sells, sort each stably by
date, and for every (sell, buy) pair with equal ticker, positive
remaining quantities and `buy.date <= sell.date` emit a provisional
`Match` with `qty = min(sell.qty, buy.qty)`. -/
def genCands (orders : List Trade) : List Match :=
  let buys :=
    List.insertionSort dateRel ((idxList 0 orders).filter (fun p => p.2.order_type == "buy"))
  let sells :=
    List.insertionSort dateRel ((idxList 0 orders).filter (fun p => p.2.order_type == "sell"))
  sells.flatMap (fun s =>
    buys.filterMap (fun b =>
      if s.2.ticker = b.2.ticker ∧ 0 < s.2.qty ∧ 0 < b.2.qty ∧ b.2.date ≤ s.2.date then
        some (mkMatch b.1 s.1 b.2 s.2 (min s.2.qty b.2.qty))
      else none))

/-- Order in which Phase 2 visits candidates:
`sorted(all_matches, key=lambda m: -strategy_func([m]))` — ascending in
the negated singleton score, ties in generation order (timsort is
stable). -/
def candRel (f : List Match → ℚ) (a b : ℕ × Match) : Prop :=
  -f [a.2] < -f [b.2] ∨ (-f [a.2] = -f [b.2] ∧ a.1 ≤ b.1)

instance (f : List Match → ℚ) : DecidableRel (candRel f) := fun a b => by
  unfold candRel; infer_instance

/-- The sorted, index-tagged candidate list used by Phase 2. -/
def sortedCandidates (f : List Match → ℚ) (cands : List Match) : List (ℕ × Match) :=
  List.insertionSort (candRel f) (idxList 0 cands)

/-- State of the Phase 2 selection loop: the trade arena, the two identity
sets `used_buy` / `used_sell` (as index lists) and the result list. -/
structure SelState where
  arena : List Trade
  used_buy : List ℕ
  used_sell : List ℕ
  result : List Match
deriving Repr

/-- `trade.qty -= q` on the arena entry at index `i` (no-op when `i` is out
of range, which never happens for indices coming from candidates). -/
def decQtyAt (l : List Trade) (i : ℕ) (q : ℤ) : List Trade :=
  match l[i]? with
  | some t => l.set i { t with qty := t.qty - q }
  | none => l

/-- One iteration of the Phase 2 greedy selection loop (`app.py` lines
168-177): skip a candidate whose buy or sell is already used; otherwise
recompute `qty = min(buy.qty, sell.qty)` from the current arena, build
the accepted `Match`, decrement both trades and mark both used. -/
def selStep (s : SelState) (m : Match) : SelState :=
  if m.buyIdx ∈ s.used_buy ∨ m.sellIdx ∈ s.used_sell then s
  else
    let buy := s.arena.getD m.buyIdx default
    let sell := s.arena.getD m.sellIdx default
    let q := min buy.qty sell.qty
    let mt := mkMatch m.buyIdx m.sellIdx buy sell q
    { arena := decQtyAt (decQtyAt s.arena m.buyIdx q) m.sellIdx q
      used_buy := m.buyIdx :: s.used_buy
      used_sell := m.sellIdx :: s.used_sell
      result := s.result ++ [mt] }

/-- `generate_matches` (`app.py` lines 145-179): Phase 1 candidate
generation, stable descending-score sort, Phase 2 greedy selection.
Returns the result list together with the final arena (the trades with
their mutated remaining quantities). -/
def generate_matches (orders : List Trade) (f : List Match → ℚ) :
    List Match × List Trade :=
  let cands := genCands orders
  let fin := ((sortedCandidates f cands).map Prod.snd).foldl selStep ⟨orders, [], [], []⟩
  (fin.result, fin.arena)

/-- The full pipeline of the web entry point (`app.py` `process`): resolve
the strategy key, apply the wash-sale pass, build the trades, and run the
matching engine. -/
def runPipeline (records : List Record) (key : Option String) : List Match × List Trade :=
  generate_matches (load_orders_from_records records) (pickStrategy (resolveKeyWeb key))

/-- The fields of a `Trade` other than the remaining quantity `qty`.
`sameFrame t u` says the two trades agree on all of them. -/
def sameFrame (t u : Trade) : Prop :=
  t.date = u.date ∧ t.order_type = u.order_type ∧ t.ticker = u.ticker ∧
  t.total_amount = u.total_amount ∧ t.price = u.price ∧
  t.original_qty = u.original_qty ∧ t.matched_qty = u.matched_qty

/-- Shape of every candidate produced by `genCands`: its indices point into
the arena at a buy trade and a sell trade of the same ticker with
positive remaining quantities and `buy.date ≤ sell.date`. -/
def CandOK (orders : List Trade) (m : Match) : Prop :=
  ∃ tb ts, orders[m.buyIdx]? = some tb ∧ orders[m.sellIdx]? = some ts ∧
    tb.order_type = "buy" ∧ ts.order_type = "sell" ∧
    tb.ticker = ts.ticker ∧ tb.date ≤ ts.date ∧ 0 < tb.qty ∧ 0 < ts.qty

/-- Invariant of the Phase 2 selection loop relative to the initial arena
`orders`: the arena keeps its length and all non-`qty` fields, accepted
matches are well-formed and marked used, no index is used twice, and
entries not referenced by any accepted match are untouched. -/
structure SelInv (orders : List Trade) (s : SelState) : Prop where
  len : s.arena.length = orders.length
  frame : ∀ i, sameFrame (s.arena.getD i default) (orders.getD i default)
  resOK : ∀ m ∈ s.result, m.buy.date ≤ m.sell.date ∧ m.buy.ticker = m.sell.ticker
  buyNodup : (s.result.map Match.buyIdx).Nodup
  sellNodup : (s.result.map Match.sellIdx).Nodup
  buyUsed : ∀ m ∈ s.result, m.buyIdx ∈ s.used_buy
  sellUsed : ∀ m ∈ s.result, m.sellIdx ∈ s.used_sell
  untouched : ∀ i, i ∉ s.result.map Match.buyIdx → i ∉ s.result.map Match.sellIdx →
    s.arena.getD i default = orders.getD i default

/-- Quantity bounds maintained by the Phase 2 loop when every initial
quantity is non-negative: every arena entry keeps `0 ≤ qty` and never
exceeds its initial quantity. -/
def QtyInv (orders : List Trade) (s : SelState) : Prop :=
  s.arena.length = orders.length ∧
  ∀ i, 0 ≤ (s.arena.getD i default).qty ∧
    (s.arena.getD i default).qty ≤ (orders.getD i default).qty

/-! ### Concrete inputs used by counterexamples and witnesses -/

/-- Three records of one ticker: the buy at day 0 has price 10, the buy at
day 1 has price 20, and the sell at day 5 has price 15, so the first
eligible lot of the sell has a per-unit loss of `10 - 15 ≤ 0` while the
second has `20 - 15 > 0`. -/
def exRecords : List Record :=
  [⟨0, "buy", "A", 10, 1⟩, ⟨1, "buy", "A", 20, 1⟩, ⟨5, "sell", "A", 15, 1⟩]

/-- A buy at day 0 and a sell of the same ticker at day 1. -/
def exOrders : List Trade :=
  [mkTrade 0 "buy" "A" 10 1, mkTrade 1 "sell" "A" 20 1]

/-- `exOrders` together with a third trade of another ticker that matches
nothing. -/
def exOrders3 : List Trade :=
  [mkTrade 0 "buy" "A" 10 1, mkTrade 1 "sell" "A" 20 1, mkTrade 0 "buy" "B" 7 1]

/-- A single buy trade carrying a negative quantity, as produced by
`Trade.__init__` from a CSV row with `qty = -1`. -/
def negTrade : Trade := mkTrade 0 "buy" "A" 10 (-1)

/-- The single match produced by running the engine on `exOrders`. -/
def matchEx : Match := mkMatch 0 1 (mkTrade 0 "buy" "A" 10 1) (mkTrade 1 "sell" "A" 20 1) 1

/-- Two unadjusted lots of ticker `"A"`: day 0 at price 10 and day 1 at
price 20. -/
def washLots : List Lot := [⟨0, "A", 1, 10, 10, false⟩, ⟨1, "A", 1, 20, 20, false⟩]

/-- An adjuster state holding exactly `washLots` under ticker `"A"`. -/
def washState : WSState := ⟨fun t => if t = "A" then washLots else [], []⟩

/-- A sell of one unit of ticker `"A"` at day 5, price 15. -/
def washSell : Record := ⟨5, "sell", "A", 15, 1⟩

/-- An adjuster state whose single lot of ticker `"A"` already has
`adjusted = true` (price 10). -/
def adjustedState : WSState := ⟨fun t => if t = "A" then [⟨0, "A", 1, 10, 10, true⟩] else [], []⟩

/-! ### Helper lemmas -/

theorem idxList_map_snd {α : Type} : ∀ (n : ℕ) (l : List α), (idxList n l).map Prod.snd = l
  | _, [] => rfl
  | n, _ :: as => by simp [idxList, idxList_map_snd (n + 1) as]

theorem mem_idxList {α : Type} :
    ∀ (n : ℕ) (l : List α) (p : ℕ × α), p ∈ idxList n l → ∃ j, p.1 = n + j ∧ l[j]? = some p.2
  | _, [], _, h => by simp [idxList] at h
  | n, a :: as, p, h => by
    rcases (by simpa [idxList] using h : p = (n, a) ∨ p ∈ idxList (n + 1) as) with h1 | h1
    · exact ⟨0, by simp [h1]⟩
    · obtain ⟨j, hj, hget⟩ := mem_idxList (n + 1) as p h1
      exact ⟨j + 1, by omega, by simpa using hget⟩

theorem mem_idxList_zero {α : Type} {l : List α} {p : ℕ × α} (h : p ∈ idxList 0 l) :
    l[p.1]? = some p.2 := by
  obtain ⟨j, hj, hget⟩ := mem_idxList 0 l p h
  simpa [hj] using hget

instance (f : List Match → ℚ) : IsTotal (ℕ × Match) (candRel f) where
  total a b := by
    unfold candRel
    rcases lt_trichotomy (-f [a.2]) (-f [b.2]) with h | h | h
    · exact Or.inl (Or.inl h)
    · rcases le_total a.1 b.1 with h1 | h1
      · exact Or.inl (Or.inr ⟨h, h1⟩)
      · exact Or.inr (Or.inr ⟨h.symm, h1⟩)
    · exact Or.inr (Or.inl h)

instance (f : List Match → ℚ) : IsTrans (ℕ × Match) (candRel f) where
  trans a b c hab hbc := by
    unfold candRel at hab hbc ⊢
    rcases hab with h1 | ⟨h1, h1i⟩ <;> rcases hbc with h2 | ⟨h2, h2i⟩
    · exact Or.inl (h1.trans h2)
    · exact Or.inl (h2 ▸ h1)
    · exact Or.inl (h1 ▸ h2)
    · exact Or.inr ⟨h1.trans h2, h1i.trans h2i⟩

theorem firstWashIdx_cons (d : ℤ) (p : ℚ) (l : Lot) (ls : List Lot) :
    firstWashIdx d p (l :: ls) =
      if washPred d p l then some 0 else (firstWashIdx d p ls).map (· + 1) := rfl

theorem scanLots_cons (tk : String) (d : ℤ) (p : ℚ) (l : Lot) (ls : List Lot) :
    scanLots tk d p (l :: ls) =
      if 0 < d - l.date ∧ d - l.date ≤ 30 ∧ l.adjusted = false then
        if 0 < l.price - p then
          (adjustLot p l :: ls, some (mkWSEvent tk d p l))
        else
          (l :: (scanLots tk d p ls).1, (scanLots tk d p ls).2)
      else
        (l :: (scanLots tk d p ls).1, (scanLots tk d p ls).2) := rfl

theorem firstWashIdx_spec (d : ℤ) (p : ℚ) :
    ∀ (ls : List Lot) (j : ℕ), firstWashIdx d p ls = some j →
      j < ls.length ∧ washPred d p (ls.getD j default) = true
  | [], j, h => by simp [firstWashIdx] at h
  | l :: ls, j, h => by
    rw [firstWashIdx_cons] at h
    by_cases hw : washPred d p l = true
    · rw [if_pos hw] at h
      injection h with h
      subst h
      simpa using hw
    · rw [if_neg hw, Option.map_eq_some'] at h
      obtain ⟨i, hi, rfl⟩ := h
      obtain ⟨h1, h2⟩ := firstWashIdx_spec d p ls i hi
      exact ⟨by simpa using Nat.succ_lt_succ h1, by simpa using h2⟩

theorem firstWashIdx_min (d : ℤ) (p : ℚ) :
    ∀ (ls : List Lot) (j : ℕ), firstWashIdx d p ls = some j →
      ∀ k, k < j → washPred d p (ls.getD k default) = false
  | [], j, h => by simp [firstWashIdx] at h
  | l :: ls, j, h => by
    rw [firstWashIdx_cons] at h
    by_cases hw : washPred d p l = true
    · rw [if_pos hw] at h
      injection h with h
      subst h
      omega
    · rw [if_neg hw, Option.map_eq_some'] at h
      obtain ⟨i, hi, rfl⟩ := h
      intro k hk
      match k with
      | 0 => simpa using (Bool.not_eq_true _).mp hw
      | k + 1 =>
        have := firstWashIdx_min d p ls i hi k (by omega)
        simpa using this

theorem scanLots_eq (tk : String) (d : ℤ) (p : ℚ) :
    ∀ ls : List Lot, scanLots tk d p ls =
      match firstWashIdx d p ls with
      | none => (ls, none)
      | some i => (ls.set i (adjustLot p (ls.getD i default)),
                   some (mkWSEvent tk d p (ls.getD i default)))
  | [] => rfl
  | l :: ls => by
    have IH := scanLots_eq tk d p ls
    by_cases h1 : 0 < d - l.date ∧ d - l.date ≤ 30 ∧ l.adjusted = false
    · by_cases h2 : 0 < l.price - p
      · have hw : washPred d p l = true := by
          unfold washPred
          exact decide_eq_true ⟨h1, h2⟩
        rw [scanLots_cons, if_pos h1, if_pos h2, firstWashIdx_cons, if_pos hw]
        simp
      · have hw : ¬ washPred d p l = true := by
          unfold washPred
          simp only [decide_eq_true_eq]
          exact fun hc => h2 hc.2
        rw [scanLots_cons, if_pos h1, if_neg h2, firstWashIdx_cons, if_neg hw, IH]
        cases hfi : firstWashIdx d p ls with
        | none => simp [hfi]
        | some i => simp [hfi]
    · have hw : ¬ washPred d p l = true := by
        unfold washPred
        simp only [decide_eq_true_eq]
        exact fun hc => h1 hc.1
      rw [scanLots_cons, if_neg h1, firstWashIdx_cons, if_neg hw, IH]
      cases hfi : firstWashIdx d p ls with
      | none => simp [hfi]
      | some i => simp [hfi]

theorem scanLots_pres_adjusted (tk : String) (d : ℤ) (p : ℚ) (ls : List Lot) (i : ℕ)
    (h : (ls.getD i default).adjusted = true) :
    (scanLots tk d p ls).1.getD i default = ls.getD i default := by
  rw [scanLots_eq]
  cases hfi : firstWashIdx d p ls with
  | none => rfl
  | some j =>
    obtain ⟨hlen, hpred⟩ := firstWashIdx_spec d p ls j hfi
    have hne : j ≠ i := by
      intro he
      subst he
      rw [washPred, decide_eq_true_eq] at hpred
      rw [hpred.1.2.2] at h
      exact absurd h (by decide)
    simp [List.getD_eq_getElem?_getD, List.getElem?_set_ne hne]

theorem wsStep_pres_adjusted (s : WSState) (r : Record) (t : String) (i : ℕ)
    (h : ((s.ticker_buys t).getD i default).adjusted = true) :
    ((wsStep s r).ticker_buys t).getD i default = (s.ticker_buys t).getD i default := by
  unfold wsStep
  by_cases hb : r.type = "buy"
  · by_cases ht : t = r.ticker
    · subst ht
      have hlt : i < (s.ticker_buys r.ticker).length := by
        by_contra hge
        push_neg at hge
        rw [List.getD_eq_getElem?_getD, List.getElem?_eq_none hge] at h
        exact absurd h (by decide)
      simp [hb, List.getD_eq_getElem?_getD, List.getElem?_append_left hlt]
    · simp [hb, ht]
  · by_cases hs : r.type = "sell"
    · by_cases ht : t = r.ticker
      · subst ht
        simpa [hb, hs] using
          scanLots_pres_adjusted r.ticker r.date (recPrice r) (s.ticker_buys r.ticker) i h
      · simp [hb, hs, ht]
    · simp [hb, hs]

/-! ### C9: relations between objective functions -/

/-- C9: over every list of Matches, objective 2 (maximize loss) returns
exactly the negation of objective 1 (maximize profit), and objective 7
(minimize loss toward zero) never returns a negative value. -/
theorem objective_loss_neg_profit_and_minimal_loss_nonneg (ms : List Match) :
    objective_loss ms = -objective_profit ms ∧ 0 ≤ objective_minimal_loss ms :=
  ⟨rfl, abs_nonneg _⟩

/-! ### C2: zero-quantity records -/

/-- C2 (divergence between the entry points): on a zero-quantity record,
`app.py` defines the unit price as `0` both in `Trade.__init__` and in
`apply_wash_sale`, while `orders.py` raises `ZeroDivisionError`
(embedded as `none`) in both places, so the engine is not total on
zero-quantity records in the `orders.py` entry point. -/
theorem zero_qty_entry_point_divergence :
    (mkTrade 0 "buy" "A" 100 0).price = 0 ∧
    recPrice ⟨0, "buy", "A", 100, 0⟩ = 0 ∧
    mkTradeOrders? 0 "buy" "A" 100 0 = none ∧
    recPriceOrders? ⟨0, "buy", "A", 100, 0⟩ = none := by
  refine ⟨?_, ?_, ?_, ?_⟩ <;> rfl

/-! ### C5: strategy-key fallback -/

/-- C5: an unrecognized strategy key resolves to `"1"` in both entry points,
so the matching engine produces exactly the output of key `"1"`; the web
entry point also maps an absent key to `"1"`. -/
theorem strategy_fallback (orders : List Trade) (k : String) (h : k ∉ strategyKeys) :
    generate_matches orders (pickStrategy (resolveKeyCLI k)) =
      generate_matches orders (pickStrategy (resolveKeyCLI "1")) ∧
    resolveKeyWeb (some k) = "1" ∧ resolveKeyWeb none = "1" := by
  have h1 : resolveKeyCLI k = "1" := by simp [resolveKeyCLI, h]
  have h2 : resolveKeyCLI "1" = "1" := by simp [resolveKeyCLI, strategyKeys]
  refine ⟨by rw [h1, h2], ?_, by simp [resolveKeyWeb, resolveKeyCLI, strategyKeys]⟩
  by_cases he : k = ""
  · simp [resolveKeyWeb, he, resolveKeyCLI, strategyKeys]
  · simp [resolveKeyWeb, he, h1]

/-- Witness for C5 at the concrete invalid key `"9"`. -/
theorem strategy_fallback_witness :
    "9" ∉ strategyKeys ∧
    (generate_matches exOrders (pickStrategy (resolveKeyCLI "9")) =
        generate_matches exOrders (pickStrategy (resolveKeyCLI "1")) ∧
      resolveKeyWeb (some "9") = "1" ∧ resolveKeyWeb none = "1") :=
  ⟨by decide, strategy_fallback exOrders "9" (by decide)⟩

/-! ### C1: where the sell scan of the wash-sale adjuster stops -/

/-- C1 (counterexample): on `exRecords` the first eligible lot of the sell
(the day-0 buy, price 10) has `lossPerUnit = 10 - 15 ≤ 0`, yet an
adjustment does occur, and it hits the later-appended day-1 lot
(`buy_date = 1`, price 20 → 25) — the scan does not stop at the first
eligible lot when its loss is non-positive. -/
theorem wash_scan_counterexample :
    apply_wash_sale exRecords =
      [{ ticker := "A", sell_date := 5, buy_date := 1, adjustment_per_unit := 5, qty := 1,
         total_adjustment := 5, old_price := 20, new_price := 25 }] ∧
    (10 : ℚ) - 15 ≤ 0 := by
  constructor
  · norm_num [apply_wash_sale, wsStep, scanLots, recPrice, exRecords, adjustLot, mkWSEvent]
    rfl
  · norm_num

/-- C1 (amended): when processing a Sell record, the scan stops at the first
lot satisfying the combined condition
`0 < days ≤ 30 ∧ adjusted = false ∧ lossPerUnit > 0` (`washPred`):
exactly that lot is adjusted, exactly one event is appended, and every
earlier lot fails the combined condition — so an eligible lot with
`lossPerUnit ≤ 0` is passed over and the scan continues past it. -/
theorem wash_sell_scan_adjusts_first_qualifying (s : WSState) (r : Record) (i : ℕ)
    (hr : r.type = "sell")
    (hf : firstWashIdx r.date (recPrice r) (s.ticker_buys r.ticker) = some i) :
    (wsStep s r).ticker_buys r.ticker =
      (s.ticker_buys r.ticker).set i
        (adjustLot (recPrice r) ((s.ticker_buys r.ticker).getD i default)) ∧
    (wsStep s r).wash_sales =
      s.wash_sales ++
        [mkWSEvent r.ticker r.date (recPrice r) ((s.ticker_buys r.ticker).getD i default)] ∧
    ∀ k, k < i → washPred r.date (recPrice r) ((s.ticker_buys r.ticker).getD k default) = false := by
  have hnb : ¬ r.type = "buy" := by
    rw [hr]
    decide
  refine ⟨?_, ?_, firstWashIdx_min _ _ _ i hf⟩ <;>
    simp [wsStep, hnb, hr, scanLots_eq, hf]

/-- Witness for the amended C1: in `washState` the first qualifying lot of
`washSell` is the one at index 1 (the day-0 lot at index 0 is eligible
but has non-positive loss), and processing the sell adjusts exactly that
lot. -/
theorem wash_sell_scan_adjusts_first_qualifying_witness :
    washSell.type = "sell" ∧
    firstWashIdx washSell.date (recPrice washSell) (washState.ticker_buys washSell.ticker) =
      some 1 ∧
    ((wsStep washState washSell).ticker_buys washSell.ticker =
        (washState.ticker_buys washSell.ticker).set 1
          (adjustLot (recPrice washSell)
            ((washState.ticker_buys washSell.ticker).getD 1 default)) ∧
      (wsStep washState washSell).wash_sales =
        washState.wash_sales ++
          [mkWSEvent washSell.ticker washSell.date (recPrice washSell)
            ((washState.ticker_buys washSell.ticker).getD 1 default)] ∧
      ∀ k, k < 1 →
        washPred washSell.date (recPrice washSell)
          ((washState.ticker_buys washSell.ticker).getD k default) = false) :=
  ⟨rfl, by norm_num [firstWashIdx, washPred, recPrice, washState, washSell, washLots],
    wash_sell_scan_adjusts_first_qualifying washState washSell 1 rfl
      (by norm_num [firstWashIdx, washPred, recPrice, washState, washSell, washLots])⟩

/-! ### C7: a lot is adjusted at most once -/

/-- C7: once a lot's `adjusted` flag is set, processing any further records
leaves that lot completely unchanged (same price, same flag), so each
open buy lot is adjusted at most once across the whole input sequence. -/
theorem lot_adjusted_at_most_once :
    ∀ (recs : List Record) (s : WSState) (t : String) (i : ℕ),
      ((s.ticker_buys t).getD i default).adjusted = true →
      ((recs.foldl wsStep s).ticker_buys t).getD i default = (s.ticker_buys t).getD i default
  | [], _, _, _, _ => rfl
  | r :: recs, s, t, i, h => by
    have h1 := wsStep_pres_adjusted s r t i h
    have h2 : (((wsStep s r).ticker_buys t).getD i default).adjusted = true := by
      rw [h1]
      exact h
    have h3 := lot_adjusted_at_most_once recs (wsStep s r) t i h2
    rw [List.foldl_cons, h3, h1]

/-- Witness for C7: a later sell at a lower price (which would otherwise
qualify) leaves the already-adjusted lot unchanged. -/
theorem lot_adjusted_at_most_once_witness :
    ((adjustedState.ticker_buys "A").getD 0 default).adjusted = true ∧
    ((([⟨5, "sell", "A", 5, 1⟩] : List Record).foldl wsStep adjustedState).ticker_buys "A").getD 0
        default =
      (adjustedState.ticker_buys "A").getD 0 default :=
  ⟨rfl, lot_adjusted_at_most_once [⟨5, "sell", "A", 5, 1⟩] adjustedState "A" 0 rfl⟩

/-! ### C6: determinism and stable tie-breaking -/

/-- C6: the full pipeline is a function of the input records and strategy
key, so two runs on the same unmodified records give identical results;
the candidate ordering used in Phase 2 is a permutation of the generated
candidates that is sorted by the relation `candRel f` — ascending in the
negated singleton score (i.e. descending score) with score ties broken
by generation order. -/
theorem pipeline_deterministic_and_sort_stable (records : List Record) (key : Option String)
    (f : List Match → ℚ) (cs : List Match) :
    runPipeline records key = runPipeline records key ∧
    List.Perm ((sortedCandidates f cs).map Prod.snd) cs ∧
    (sortedCandidates f cs).Sorted (candRel f) := by
  refine ⟨rfl, ?_, List.sorted_insertionSort _ _⟩
  have h1 : List.Perm (sortedCandidates f cs) (idxList 0 cs) := List.perm_insertionSort _ _
  have h2 := h1.map Prod.snd
  rwa [idxList_map_snd] at h2

/-! ### Invariants of the Phase 2 selection loop -/

theorem sameFrame_refl (t : Trade) : sameFrame t t :=
  ⟨rfl, rfl, rfl, rfl, rfl, rfl, rfl⟩

theorem sameFrame_trans {t u v : Trade} (h1 : sameFrame t u) (h2 : sameFrame u v) :
    sameFrame t v := by
  obtain ⟨a1, a2, a3, a4, a5, a6, a7⟩ := h1
  obtain ⟨b1, b2, b3, b4, b5, b6, b7⟩ := h2
  exact ⟨a1.trans b1, a2.trans b2, a3.trans b3, a4.trans b4, a5.trans b5, a6.trans b6,
    a7.trans b7⟩

theorem getElem?_eq_some_getD {l : List Trade} {i : ℕ} (h : i < l.length) :
    l[i]? = some (l.getD i default) := by
  simp [List.getD_eq_getElem?_getD, List.getElem?_eq_getElem h]

theorem lt_length_of_getElem?_eq_some {l : List Trade} {i : ℕ} {t : Trade}
    (h : l[i]? = some t) : i < l.length := by
  by_contra hge
  push_neg at hge
  rw [List.getElem?_eq_none hge] at h
  cases h

theorem decQtyAt_length (l : List Trade) (i : ℕ) (q : ℤ) :
    (decQtyAt l i q).length = l.length := by
  unfold decQtyAt
  cases h : l[i]? <;> simp

theorem decQtyAt_getD_ne (l : List Trade) (i j : ℕ) (q : ℤ) (h : i ≠ j) :
    (decQtyAt l i q).getD j default = l.getD j default := by
  unfold decQtyAt
  cases hg : l[i]? with
  | none => rfl
  | some t => simp [List.getD_eq_getElem?_getD, List.getElem?_set_ne h]

theorem decQtyAt_getD_self {l : List Trade} {i : ℕ} {t : Trade} (q : ℤ) (h : l[i]? = some t) :
    (decQtyAt l i q).getD i default = { t with qty := t.qty - q } := by
  have hlt : i < l.length := lt_length_of_getElem?_eq_some h
  unfold decQtyAt
  rw [h]
  simp [List.getD_eq_getElem?_getD, List.getElem?_set_self hlt]

theorem decQtyAt_frame (l : List Trade) (i j : ℕ) (q : ℤ) :
    sameFrame ((decQtyAt l i q).getD j default) (l.getD j default) := by
  rcases eq_or_ne i j with rfl | h
  · cases hg : l[i]? with
    | none =>
      unfold decQtyAt
      rw [hg]
      exact sameFrame_refl _
    | some t =>
      rw [decQtyAt_getD_self q hg]
      have ht : l.getD i default = t := by
        simp [List.getD_eq_getElem?_getD, hg]
      rw [ht]
      exact ⟨rfl, rfl, rfl, rfl, rfl, rfl, rfl⟩
  · rw [decQtyAt_getD_ne l i j q h]
    exact sameFrame_refl _

theorem selStep_inv {orders : List Trade} {s : SelState} {m : Match}
    (hc : CandOK orders m) (hs : SelInv orders s) : SelInv orders (selStep s m) := by
  unfold selStep
  by_cases hused : m.buyIdx ∈ s.used_buy ∨ m.sellIdx ∈ s.used_sell
  · rw [if_pos hused]
    exact hs
  · rw [if_neg hused]
    push_neg at hused
    obtain ⟨hub, hus⟩ := hused
    obtain ⟨tb, ts, hb, hsel, htb, hts, htk, hd, hqb, hqs⟩ := hc
    have hne : m.buyIdx ≠ m.sellIdx := by
      intro he
      rw [he, hsel] at hb
      injection hb with hb
      rw [← hb] at htb
      rw [hts] at htb
      exact absurd htb (by decide)
    have hgb : orders.getD m.buyIdx default = tb := by
      simp [List.getD_eq_getElem?_getD, hb]
    have hgs : orders.getD m.sellIdx default = ts := by
      simp [List.getD_eq_getElem?_getD, hsel]
    refine ⟨?_, ?_, ?_, ?_, ?_, ?_, ?_, ?_⟩
    · rw [decQtyAt_length, decQtyAt_length]
      exact hs.len
    · intro i
      exact sameFrame_trans
        (sameFrame_trans (decQtyAt_frame _ _ i _) (decQtyAt_frame _ _ i _)) (hs.frame i)
    · intro m' hm'
      rcases List.mem_append.1 hm' with hm' | hm'
      · exact hs.resOK m' hm'
      · rw [List.mem_singleton] at hm'
        subst hm'
      -- the accepted match snapshots the current arena entries, whose date
      -- and ticker agree with the initial ones by the frame invariant
        have hfb := hs.frame m.buyIdx
        have hfs := hs.frame m.sellIdx
        rw [hgb] at hfb
        rw [hgs] at hfs
        constructor
        · show (s.arena.getD m.buyIdx default).date ≤ (s.arena.getD m.sellIdx default).date
          rw [hfb.1, hfs.1]
          exact hd
        · show (s.arena.getD m.buyIdx default).ticker = (s.arena.getD m.sellIdx default).ticker
          rw [hfb.2.2.1, hfs.2.2.1]
          exact htk
    · rw [List.map_append]
      rw [List.nodup_append]
      refine ⟨hs.buyNodup, List.nodup_singleton _, ?_⟩
      intro a ha hb'
      rw [List.map_singleton, List.mem_singleton] at hb'
      subst hb'
      rw [List.mem_map] at ha
      obtain ⟨m', hm', he⟩ := ha
      exact hub (he ▸ hs.buyUsed m' hm')
    · rw [List.map_append]
      rw [List.nodup_append]
      refine ⟨hs.sellNodup, List.nodup_singleton _, ?_⟩
      intro a ha hb'
      rw [List.map_singleton, List.mem_singleton] at hb'
      subst hb'
      rw [List.mem_map] at ha
      obtain ⟨m', hm', he⟩ := ha
      exact hus (he ▸ hs.sellUsed m' hm')
    · intro m' hm'
      rcases List.mem_append.1 hm' with hm' | hm'
      · exact List.mem_cons_of_mem _ (hs.buyUsed m' hm')
      · rw [List.mem_singleton] at hm'
        subst hm'
        exact List.mem_cons_self _ _
    · intro m' hm'
      rcases List.mem_append.1 hm' with hm' | hm'
      · exact List.mem_cons_of_mem _ (hs.sellUsed m' hm')
      · rw [List.mem_singleton] at hm'
        subst hm'
        exact List.mem_cons_self _ _
    · intro i hib his
      rw [List.map_append, List.mem_append] at hib his
      push_neg at hib his
      have hib2 : i ≠ m.buyIdx := by
        intro he
        exact hib.2 (by simp [he, mkMatch])
      have his2 : i ≠ m.sellIdx := by
        intro he
        exact his.2 (by simp [he, mkMatch])
      rw [decQtyAt_getD_ne _ _ _ _ (fun he => his2 he.symm),
        decQtyAt_getD_ne _ _ _ _ (fun he => hib2 he.symm)]
      exact hs.untouched i hib.1 his.1

theorem foldl_selStep_inv (orders : List Trade) :
    ∀ (l : List Match) (s : SelState), (∀ m ∈ l, CandOK orders m) → SelInv orders s →
      SelInv orders (l.foldl selStep s)
  | [], _, _, hs => hs
  | m :: l, s, hl, hs => by
    rw [List.foldl_cons]
    exact foldl_selStep_inv orders l (selStep s m)
      (fun x hx => hl x (List.mem_cons_of_mem _ hx))
      (selStep_inv (hl m (List.mem_cons_self _ _)) hs)

theorem genCands_ok (orders : List Trade) : ∀ m ∈ genCands orders, CandOK orders m := by
  intro m hm
  unfold genCands at hm
  rw [List.mem_flatMap] at hm
  obtain ⟨p, hpmem, hm⟩ := hm
  rw [List.mem_filterMap] at hm
  obtain ⟨b, hbmem, hb⟩ := hm
  by_cases hcond : p.2.ticker = b.2.ticker ∧ 0 < p.2.qty ∧ 0 < b.2.qty ∧ b.2.date ≤ p.2.date
  · rw [if_pos hcond] at hb
    injection hb with hb
    subst hb
    rw [List.mem_insertionSort, List.mem_filter] at hpmem hbmem
    have hbo : b.2.order_type = "buy" := by
      have := hbmem.2
      rwa [beq_iff_eq] at this
    have hpo : p.2.order_type = "sell" := by
      have := hpmem.2
      rwa [beq_iff_eq] at this
    exact ⟨b.2, p.2, mem_idxList_zero hbmem.1, mem_idxList_zero hpmem.1, hbo, hpo,
      hcond.1.symm, hcond.2.2.2, hcond.2.2.1, hcond.2.1⟩
  · rw [if_neg hcond] at hb
    cases hb

theorem mem_sortedCandidates {f : List Match → ℚ} {cs : List Match} {m : Match}
    (h : m ∈ (sortedCandidates f cs).map Prod.snd) : m ∈ cs := by
  rw [List.mem_map] at h
  obtain ⟨p, hp, he⟩ := h
  rw [sortedCandidates, List.mem_insertionSort] at hp
  exact he ▸ List.getElem?_mem (mem_idxList_zero hp)

theorem selInv_init (orders : List Trade) : SelInv orders ⟨orders, [], [], []⟩ :=
  ⟨rfl, fun _ => sameFrame_refl _, fun _ hm => absurd hm (List.not_mem_nil _),
    List.nodup_nil, List.nodup_nil, fun _ hm => absurd hm (List.not_mem_nil _),
    fun _ hm => absurd hm (List.not_mem_nil _), fun _ _ _ => rfl⟩

theorem generate_matches_inv (orders : List Trade) (f : List Match → ℚ) :
    SelInv orders
      (((sortedCandidates f (genCands orders)).map Prod.snd).foldl selStep
        ⟨orders, [], [], []⟩) :=
  foldl_selStep_inv orders _ _
    (fun m hm => genCands_ok orders m (mem_sortedCandidates hm))
    (selInv_init orders)

theorem candOK_ne {orders : List Trade} {m : Match} (hc : CandOK orders m) :
    m.buyIdx ≠ m.sellIdx := by
  obtain ⟨tb, ts, hb, hsel, htb, hts, _, _, _, _⟩ := hc
  intro he
  rw [he, hsel] at hb
  injection hb with hb
  rw [← hb] at htb
  rw [hts] at htb
  exact absurd htb (by decide)

theorem selStep_qty_inv {orders : List Trade} {s : SelState} {m : Match}
    (hc : CandOK orders m) (h : QtyInv orders s) : QtyInv orders (selStep s m) := by
  unfold selStep
  by_cases hused : m.buyIdx ∈ s.used_buy ∨ m.sellIdx ∈ s.used_sell
  · rw [if_pos hused]
    exact h
  · rw [if_neg hused]
    obtain ⟨hlen, hq⟩ := h
    have hne : m.buyIdx ≠ m.sellIdx := candOK_ne hc
    obtain ⟨tb, ts, hb, hsel, _, _, _, _, _, _⟩ := hc
    have hbl : m.buyIdx < s.arena.length := by
      rw [hlen]
      exact lt_length_of_getElem?_eq_some hb
    have hsl : m.sellIdx < s.arena.length := by
      rw [hlen]
      exact lt_length_of_getElem?_eq_some hsel
    have hba : s.arena[m.buyIdx]? = some (s.arena.getD m.buyIdx default) :=
      getElem?_eq_some_getD hbl
    have ha1len :
        (decQtyAt s.arena m.buyIdx
          (min (s.arena.getD m.buyIdx default).qty (s.arena.getD m.sellIdx default).qty)).length =
          s.arena.length :=
      decQtyAt_length _ _ _
    have ha1b := decQtyAt_getD_self
      (min (s.arena.getD m.buyIdx default).qty (s.arena.getD m.sellIdx default).qty) hba
    have ha1s := decQtyAt_getD_ne s.arena m.buyIdx m.sellIdx
      (min (s.arena.getD m.buyIdx default).qty (s.arena.getD m.sellIdx default).qty) hne
    have hsa1 :
        (decQtyAt s.arena m.buyIdx
          (min (s.arena.getD m.buyIdx default).qty
            (s.arena.getD m.sellIdx default).qty))[m.sellIdx]? =
          some (s.arena.getD m.sellIdx default) := by
      rw [getElem?_eq_some_getD (ha1len ▸ hsl), ha1s]
    have ha2s := decQtyAt_getD_self
      (min (s.arena.getD m.buyIdx default).qty (s.arena.getD m.sellIdx default).qty) hsa1
    have ha2b := decQtyAt_getD_ne
      (decQtyAt s.arena m.buyIdx
        (min (s.arena.getD m.buyIdx default).qty (s.arena.getD m.sellIdx default).qty))
      m.sellIdx m.buyIdx
      (min (s.arena.getD m.buyIdx default).qty (s.arena.getD m.sellIdx default).qty)
      (Ne.symm hne)
    have h0b : (0 : ℤ) ≤ (s.arena.getD m.buyIdx default).qty := (hq m.buyIdx).1
    have h0s : (0 : ℤ) ≤ (s.arena.getD m.sellIdx default).qty := (hq m.sellIdx).1
    have h0q : (0 : ℤ) ≤
        min (s.arena.getD m.buyIdx default).qty (s.arena.getD m.sellIdx default).qty :=
      le_min h0b h0s
    refine ⟨?_, ?_⟩
    · rw [decQtyAt_length, decQtyAt_length]
      exact hlen
    · intro i
      have hmin1 := min_le_left (s.arena.getD m.buyIdx default).qty
        (s.arena.getD m.sellIdx default).qty
      have hmin2 := min_le_right (s.arena.getD m.buyIdx default).qty
        (s.arena.getD m.sellIdx default).qty
      rcases eq_or_ne i m.buyIdx with rfl | hib
      · rw [ha2b, ha1b]
        have horders := (hq m.buyIdx).2
        constructor
        · show (0 : ℤ) ≤ (s.arena.getD m.buyIdx default).qty -
            min (s.arena.getD m.buyIdx default).qty (s.arena.getD m.sellIdx default).qty
          omega
        · show (s.arena.getD m.buyIdx default).qty -
              min (s.arena.getD m.buyIdx default).qty (s.arena.getD m.sellIdx default).qty ≤
            (orders.getD m.buyIdx default).qty
          omega
      · rcases eq_or_ne i m.sellIdx with rfl | his
        · rw [ha2s]
          have horders := (hq m.sellIdx).2
          constructor
          · show (0 : ℤ) ≤ (s.arena.getD m.sellIdx default).qty -
              min (s.arena.getD m.buyIdx default).qty (s.arena.getD m.sellIdx default).qty
            omega
          · show (s.arena.getD m.sellIdx default).qty -
                min (s.arena.getD m.buyIdx default).qty (s.arena.getD m.sellIdx default).qty ≤
              (orders.getD m.sellIdx default).qty
            omega
        · rw [decQtyAt_getD_ne _ _ _ _ (Ne.symm his), decQtyAt_getD_ne _ _ _ _ (Ne.symm hib)]
          exact hq i

theorem foldl_selStep_qty (orders : List Trade) :
    ∀ (l : List Match) (s : SelState), (∀ m ∈ l, CandOK orders m) → QtyInv orders s →
      QtyInv orders (l.foldl selStep s)
  | [], _, _, hs => hs
  | m :: l, s, hl, hs => by
    rw [List.foldl_cons]
    exact foldl_selStep_qty orders l (selStep s m)
      (fun x hx => hl x (List.mem_cons_of_mem _ hx))
      (selStep_qty_inv (hl m (List.mem_cons_self _ _)) hs)

theorem qtyInv_init (orders : List Trade) (h1 : ∀ t ∈ orders, 0 ≤ t.qty) :
    QtyInv orders ⟨orders, [], [], []⟩ := by
  refine ⟨rfl, fun i => ⟨?_, le_refl _⟩⟩
  by_cases hlt : i < orders.length
  · exact h1 _ (List.getElem?_mem (getElem?_eq_some_getD hlt))
  · push_neg at hlt
    rw [List.getD_eq_getElem?_getD, List.getElem?_eq_none hlt]
    exact le_refl 0

/-! ### C3: no Trade appears in two accepted Matches -/

/-- C3: in the result of `generate_matches`, no buy index and no sell index
occurs twice — once a Trade participates in an accepted Match it is added
to the `used` identity set and every later candidate referencing it is
skipped, even if its remaining quantity is still positive. -/
theorem no_trade_in_two_matches (orders : List Trade) (f : List Match → ℚ) :
    ((generate_matches orders f).1.map Match.buyIdx).Nodup ∧
    ((generate_matches orders f).1.map Match.sellIdx).Nodup :=
  ⟨(generate_matches_inv orders f).buyNodup, (generate_matches_inv orders f).sellNodup⟩

/-! ### C8: accepted matches pair a buy with a later sell of the same ticker -/

/-- C8: every Match returned by `generate_matches` satisfies
`buy.date ≤ sell.date` and pairs trades of the same ticker. -/
theorem match_buy_date_le_sell_date (orders : List Trade) (f : List Match → ℚ) :
    ∀ m ∈ (generate_matches orders f).1,
      m.buy.date ≤ m.sell.date ∧ m.buy.ticker = m.sell.ticker :=
  fun m hm => (generate_matches_inv orders f).resOK m hm

/-- Witness for C8 at the concrete run on `exOrders`. -/
theorem match_buy_date_le_sell_date_witness :
    matchEx ∈ (generate_matches exOrders objective_profit).1 ∧
    (matchEx.buy.date ≤ matchEx.sell.date ∧ matchEx.buy.ticker = matchEx.sell.ticker) :=
  ⟨List.Mem.head _,
    match_buy_date_le_sell_date exOrders objective_profit matchEx (List.Mem.head _)⟩

/-! ### C10: the engine mutates only remaining quantities -/

/-- C10: a run of `generate_matches` keeps the arena's length, keeps every
field of every Trade other than `qty` (its date, order type, ticker, unit
price, total amount, original quantity and matched quantity), and leaves
`qty` itself unchanged on every Trade that appears in no accepted
Match. -/
theorem generate_matches_frame_effect (orders : List Trade) (f : List Match → ℚ) :
    (generate_matches orders f).2.length = orders.length ∧
    (∀ i, sameFrame ((generate_matches orders f).2.getD i default) (orders.getD i default)) ∧
    ∀ i, i ∉ (generate_matches orders f).1.map Match.buyIdx →
      i ∉ (generate_matches orders f).1.map Match.sellIdx →
      (generate_matches orders f).2.getD i default = orders.getD i default :=
  ⟨(generate_matches_inv orders f).len, (generate_matches_inv orders f).frame,
    (generate_matches_inv orders f).untouched⟩

/-- Witness for C10: in the run on `exOrders3` the ticker-`"B"` trade at
index 2 appears in no Match and is untouched. -/
theorem generate_matches_frame_effect_witness :
    (2 ∉ (generate_matches exOrders3 objective_profit).1.map Match.buyIdx ∧
      2 ∉ (generate_matches exOrders3 objective_profit).1.map Match.sellIdx) ∧
    (generate_matches exOrders3 objective_profit).2.getD 2 default =
      exOrders3.getD 2 default :=
  ⟨⟨by decide, by decide⟩,
    (generate_matches_frame_effect exOrders3 objective_profit).2.2 2 (by decide) (by decide)⟩

/-! ### C4: bounds on remaining quantities -/

/-- C4 (counterexample): a Trade built from a record with `qty = -1`
satisfies the claim's hypothesis (`remainingQty = originalQty` at the
start) but violates `0 ≤ remainingQty` after a matching run, because a
negative quantity is never consumed and never repaired. -/
theorem qty_bounds_counterexample :
    (∀ t ∈ [negTrade], t.qty = t.original_qty) ∧
    ¬ (∀ t ∈ (generate_matches [negTrade] objective_profit).2,
        0 ≤ t.qty ∧ t.qty ≤ t.original_qty) := by
  constructor
  · decide
  · decide

/-- C4 (amended): if additionally every input Trade has a non-negative
quantity, then after a run of `generate_matches` every Trade satisfies
`0 ≤ remainingQty ≤ originalQty`. -/
theorem remaining_qty_bounds (orders : List Trade) (f : List Match → ℚ)
    (h0 : ∀ t ∈ orders, t.qty = t.original_qty) (h1 : ∀ t ∈ orders, 0 ≤ t.qty) :
    ∀ t ∈ (generate_matches orders f).2, 0 ≤ t.qty ∧ t.qty ≤ t.original_qty := by
  have hq : QtyInv orders
      (((sortedCandidates f (genCands orders)).map Prod.snd).foldl selStep
        ⟨orders, [], [], []⟩) :=
    foldl_selStep_qty orders _ _
      (fun m hm => genCands_ok orders m (mem_sortedCandidates hm))
      (qtyInv_init orders h1)
  have hf := generate_matches_inv orders f
  intro t ht
  rw [List.mem_iff_getElem?] at ht
  obtain ⟨i, hi⟩ := ht
  have hgd : (generate_matches orders f).2.getD i default = t := by
    simp [List.getD_eq_getElem?_getD, hi]
  have hlt : i < orders.length := by
    have := lt_length_of_getElem?_eq_some hi
    have hlen : (generate_matches orders f).2.length = orders.length := hf.len
    omega
  have hmem : orders.getD i default ∈ orders := List.getElem?_mem (getElem?_eq_some_getD hlt)
  have hoq : (orders.getD i default).qty = (orders.getD i default).original_qty := h0 _ hmem
  have hfr : ((generate_matches orders f).2.getD i default).original_qty =
      (orders.getD i default).original_qty := (hf.frame i).2.2.2.2.2.1
  have hb1 : (0 : ℤ) ≤ ((generate_matches orders f).2.getD i default).qty := (hq.2 i).1
  have hb2 : ((generate_matches orders f).2.getD i default).qty ≤
      (orders.getD i default).qty := (hq.2 i).2
  rw [hgd] at hb1 hb2 hfr
  exact ⟨hb1, by omega⟩

/-- Witness for the amended C4 at the concrete run on `exOrders`. -/
theorem remaining_qty_bounds_witness :
    (∀ t ∈ exOrders, t.qty = t.original_qty) ∧ (∀ t ∈ exOrders, 0 ≤ t.qty) ∧
    ∀ t ∈ (generate_matches exOrders objective_profit).2,
      0 ≤ t.qty ∧ t.qty ≤ t.original_qty :=
  ⟨by decide, by decide,
    remaining_qty_bounds exOrders objective_profit (by decide) (by decide)⟩

end TradeMatcher
